import Mathlib

set_option autoImplicit false

/-!
Verification development for the Vault storage engine
(crate under src/app): shallow embedding of the cryptographic
storage engine (src/app/src/storage/mod.rs and src/app/src/crypto)
together with theorems about its tenant lifecycle, secret mutation,
audit emission and error behaviour.

Conventions of the embedding:
  - byte strings are lists of naturals;
  - every random draw (OsRng salts and nonces, Uuid::new_v4) and every
    clock reading (Utc::now, timestamp_nanos) is passed to the embedded
    operation as an explicit input;
  - the sled database is an association list from flat string keys to
    typed record values (bincode serialization is assumed faithful, so
    values are stored as the records themselves);
  - Result is Except; error paths that can only arise from I/O or
    serialization failures of the external crates are not modelled.
-/

namespace VaultSpec

/-- Byte strings of the source are modelled as lists of naturals. -/
abbrev Bytes := List Nat

/-- Embedding of EncryptionAlgorithm (src/app/src/crypto/mod.rs:19-22). -/
inductive EncryptionAlgorithm where
  | Aes256Gcm
  | ChaCha20Poly1305
deriving DecidableEq, Repr

/-- Embedding of VaultError (src/app/src/error.rs); payloads reachable in
the embedded operations keep their message strings. -/
inductive VaultError where
  | Storage (msg : String)
  | Serialization
  | Crypto (msg : String)
  | Auth (msg : String)
  | Config (msg : String)
  | Sync (msg : String)
  | TenantNotFound (tenant : String)
  | SecretNotFound (which : String)
  | VaultLocked
  | InvalidPassphrase
  | PermissionDenied (msg : String)
deriving DecidableEq, Repr

/-- Modelled from the spec: Argon2id lives in the external argon2 crate
(src/app/src/crypto/kdf.rs:23-56 only configures and invokes it). The spec
describes it as a deterministic, salt-sensitive, collision-free KDF over
the passphrase and a random 32-byte salt, so the derived 32 key bytes are
modelled as an injective encoding of the pair of inputs. Salts (and all
other random draws) are single naturals. -/
def derive_key_argon2id (passphrase : String) (salt : Nat) : Bytes :=
  salt :: passphrase.data.map Char.toNat

/-- Modelled from the spec: the two AEAD suites live in the external
aes_gcm and chacha20poly1305 crates (src/app/src/crypto/aes.rs,
src/app/src/crypto/chacha.rs only wrap them). Per the spec they are ideal
authenticated ciphers: a ciphertext is the plaintext carried together with
an authentication tag binding the key, the nonce and the AEAD
construction, and decryption returns the plaintext exactly when that tag
verifies. -/
structure AeadCiphertext where
  body : Bytes
  tagKey : Bytes
  tagNonce : Nat
  tagAlg : EncryptionAlgorithm
deriving DecidableEq, Repr

/-- Embedding of encrypt_aes256gcm (src/app/src/crypto/aes.rs:6-18); the
nonce drawn from OsRng inside the function is the explicit input
nonceDraw. Returns (ciphertext, nonce) as the source does. -/
def encrypt_aes256gcm (key : Bytes) (nonceDraw : Nat) (plaintext : Bytes) :
    AeadCiphertext × Nat :=
  ({ body := plaintext, tagKey := key, tagNonce := nonceDraw,
     tagAlg := EncryptionAlgorithm.Aes256Gcm }, nonceDraw)

/-- Embedding of decrypt_aes256gcm (src/app/src/crypto/aes.rs:20-27):
succeeds exactly when the AES-256-GCM authentication tag verifies under
the given key and nonce. -/
def decrypt_aes256gcm (key : Bytes) (ciphertext : AeadCiphertext) (nonce : Nat) :
    Except VaultError Bytes :=
  if ciphertext.tagKey = key ∧ ciphertext.tagNonce = nonce ∧
      ciphertext.tagAlg = EncryptionAlgorithm.Aes256Gcm then
    Except.ok ciphertext.body
  else
    Except.error (VaultError.Crypto ("AES-256-GCM decryption failed"))

/-- Embedding of encrypt_chacha20poly1305 (src/app/src/crypto/chacha.rs:6-18). -/
def encrypt_chacha20poly1305 (key : Bytes) (nonceDraw : Nat) (plaintext : Bytes) :
    AeadCiphertext × Nat :=
  ({ body := plaintext, tagKey := key, tagNonce := nonceDraw,
     tagAlg := EncryptionAlgorithm.ChaCha20Poly1305 }, nonceDraw)

/-- Embedding of decrypt_chacha20poly1305 (src/app/src/crypto/chacha.rs:20-27). -/
def decrypt_chacha20poly1305 (key : Bytes) (ciphertext : AeadCiphertext) (nonce : Nat) :
    Except VaultError Bytes :=
  if ciphertext.tagKey = key ∧ ciphertext.tagNonce = nonce ∧
      ciphertext.tagAlg = EncryptionAlgorithm.ChaCha20Poly1305 then
    Except.ok ciphertext.body
  else
    Except.error (VaultError.Crypto ("ChaCha20-Poly1305 decryption failed"))

/-- Embedding of EncryptedData (src/app/src/crypto/mod.rs:25-31). -/
structure EncryptedData where
  algorithm : EncryptionAlgorithm
  ciphertext : AeadCiphertext
  nonce : Nat
  salt : Nat
  version : Nat
deriving DecidableEq, Repr

/-- Embedding of MasterKey (src/app/src/crypto/mod.rs:33-36). -/
structure MasterKey where
  key : Bytes
  algorithm : EncryptionAlgorithm
deriving DecidableEq, Repr

/-- Embedding of MasterKey::derive_from_passphrase
(src/app/src/crypto/mod.rs:39-51). The source Result can only fail inside
the argon2 crate, which is not modelled. -/
def MasterKey.derive_from_passphrase (passphrase : String) (salt : Nat)
    (algorithm : EncryptionAlgorithm) : MasterKey :=
  { key := derive_key_argon2id passphrase salt, algorithm := algorithm }

/-- Embedding of MasterKey::encrypt (src/app/src/crypto/mod.rs:65-91):
dispatches on the key's own suite; the per-blob random salt and the nonce
drawn inside the cipher call are explicit inputs. -/
def MasterKey.encrypt (self : MasterKey) (saltDraw nonceDraw : Nat)
    (plaintext : Bytes) : EncryptedData :=
  match self.algorithm with
  | EncryptionAlgorithm.Aes256Gcm =>
    let r := encrypt_aes256gcm self.key nonceDraw plaintext
    { algorithm := EncryptionAlgorithm.Aes256Gcm, ciphertext := r.1,
      nonce := r.2, salt := saltDraw, version := 1 }
  | EncryptionAlgorithm.ChaCha20Poly1305 =>
    let r := encrypt_chacha20poly1305 self.key nonceDraw plaintext
    { algorithm := EncryptionAlgorithm.ChaCha20Poly1305, ciphertext := r.1,
      nonce := r.2, salt := saltDraw, version := 1 }

/-- Embedding of MasterKey::decrypt (src/app/src/crypto/mod.rs:93-102).
Note that the source matches on the algorithm tag carried by the
encrypted blob, not on the suite of the master key itself. -/
def MasterKey.decrypt (self : MasterKey) (encrypted : EncryptedData) :
    Except VaultError Bytes :=
  match encrypted.algorithm with
  | EncryptionAlgorithm.Aes256Gcm =>
    decrypt_aes256gcm self.key encrypted.ciphertext encrypted.nonce
  | EncryptionAlgorithm.ChaCha20Poly1305 =>
    decrypt_chacha20poly1305 self.key encrypted.ciphertext encrypted.nonce

/-- Embedding of the derived array equality used by unlock at
src/app/src/storage/mod.rs:212 (derived_hash != tenant.password_hash is
the negation of this test): Rust derives PartialEq on u8 arrays, which
compares bytes left to right and stops at the first difference. -/
def bytesEq : Bytes → Bytes → Bool
  | [], [] => true
  | [], _ :: _ => false
  | _ :: _, [] => false
  | a :: l, b :: k => if a = b then bytesEq l k else false

/-- Observable effort of the comparison embedded by bytesEq: the number of
byte comparisons it performs before returning. -/
def bytesEqSteps : Bytes → Bytes → Nat
  | [], _ => 0
  | _ :: _, [] => 0
  | a :: l, b :: k => if a = b then 1 + bytesEqSteps l k else 1

/-- Embedding of KeyDerivationParams (src/app/src/storage/tenant.rs:31-36). -/
structure KeyDerivationParams where
  memory_cost : Nat
  time_cost : Nat
  parallelism : Nat
deriving DecidableEq, Repr

/-- Embedding of TenantSettings (src/app/src/storage/tenant.rs:15-23). -/
structure TenantSettings where
  max_secrets : Option Nat
  max_namespaces : Option Nat
  encryption_algorithm : EncryptionAlgorithm
  key_derivation_params : KeyDerivationParams
  audit_enabled : Bool
  sync_enabled : Bool
deriving DecidableEq, Repr

/-- Embedding of TenantSettings::default (src/app/src/storage/tenant.rs:38-53). -/
def TenantSettings.defaults : TenantSettings :=
  { max_secrets := none, max_namespaces := none,
    encryption_algorithm := EncryptionAlgorithm.Aes256Gcm,
    key_derivation_params := { memory_cost := 65536, time_cost := 3, parallelism := 1 },
    audit_enabled := true, sync_enabled := false }

/-- Embedding of Tenant (src/app/src/storage/tenant.rs:4-13); timestamps
are naturals. -/
structure Tenant where
  id : String
  name : String
  admin : String
  created_at : Nat
  salt : Nat
  password_hash : Bytes
  settings : TenantSettings
deriving DecidableEq, Repr

/-- Embedding of Tenant::new_with_password
(src/app/src/storage/tenant.rs:68-78); the Utc::now reading is the
explicit input now. -/
def Tenant.new_with_password (id name admin : String) (salt : Nat)
    (password_hash : Bytes) (now : Nat) : Tenant :=
  { id := id, name := name, admin := admin, created_at := now, salt := salt,
    password_hash := password_hash, settings := TenantSettings.defaults }

/-- Embedding of SecretMetadata (src/app/src/storage/mod.rs:22-33); Uuid
values are naturals, and the source field named namespace is called ns
here because namespace is a reserved word of Lean. -/
structure SecretMetadata where
  id : Nat
  tenant_id : String
  ns : String
  key : String
  version : Nat
  created_at : Nat
  updated_at : Nat
  created_by : String
  tags : List String
deriving DecidableEq, Repr

/-- Embedding of Secret (src/app/src/storage/mod.rs:35-39). -/
structure Secret where
  metadata : SecretMetadata
  encrypted_value : EncryptedData
deriving DecidableEq, Repr

/-- Embedding of AuditEntry (src/app/src/storage/audit.rs:5-18); the JSON
metadata bag is modelled as a string. -/
structure AuditEntry where
  id : Nat
  tenant_id : String
  event_type : String
  description : String
  timestamp : Nat
  user_id : String
  ip_address : Option String
  user_agent : Option String
  resource_type : Option String
  resource_id : Option String
  metadata : Option String
deriving DecidableEq, Repr

/-- A typed value stored in the sled database: bincode serialization is
assumed faithful, so the store holds the records themselves. The session
key blob is the (key bytes, algorithm) pair written by
store_key_data_for_session (src/app/src/storage/mod.rs:227-241). -/
inductive StoreVal where
  | tenantRec (t : Tenant)
  | secretRec (s : Secret)
  | auditRec (a : AuditEntry)
  | sessionKeyRec (key : Bytes) (algorithm : EncryptionAlgorithm)
deriving DecidableEq, Repr

/-- The sled database: an association list from flat string keys to typed
values, with map semantics (insert overwrites). -/
abbrev Store := List (String × StoreVal)

/-- Point lookup, embedding sled Db::get. -/
def dbGet : Store → String → Option StoreVal
  | [], _ => none
  | p :: db, k => if p.1 = k then some p.2 else dbGet db k

/-- Removal of every binding of a key, embedding sled Db::remove. -/
def dbRemoveKey : Store → String → Store
  | [], _ => []
  | p :: db, k => if p.1 = k then dbRemoveKey db k else p :: dbRemoveKey db k

/-- Insertion with overwrite, embedding sled Db::insert. -/
def dbInsert (db : Store) (k : String) (v : StoreVal) : Store :=
  (k, v) :: dbRemoveKey db k

/-- Key of a tenant record: tenant:<tenant_id> (src/app/src/storage/mod.rs:188). -/
def tenantKey (tenant_id : String) : String :=
  "tenant:" ++ tenant_id

/-- Key of a secret record: secret:<tenant>:<namespace>:<key>
(src/app/src/storage/mod.rs:280). -/
def secretKey (tenant_id ns key : String) : String :=
  "secret:" ++ tenant_id ++ ":" ++ ns ++ ":" ++ key

/-- Key of the cached session key blob: session_key:<tenant>
(src/app/src/storage/mod.rs:230). -/
def sessionKeyKey (tenant_id : String) : String :=
  "session_key:" ++ tenant_id

/-- The tenant-determined part of an audit key: audit:<tenant>: . -/
def auditKeyStem (tenant_id : String) : String :=
  "audit:" ++ tenant_id ++ ":"

/-- Key of an audit entry: audit:<tenant>:<nanosecond timestamp>
(src/app/src/storage/mod.rs:502). There is no collision disambiguator. -/
def auditKey (tenant_id : String) (nanos : Nat) : String :=
  auditKeyStem tenant_id ++ toString nanos

/-- UTF-8 encoding of a string value, embedding str::as_bytes. -/
def strBytes (s : String) : Bytes :=
  s.data.map Char.toNat

/-- UTF-8 decoding, embedding String::from_utf8 (None on invalid bytes). -/
def bytesStr (bs : Bytes) : Option String :=
  let cs := bs.map Char.ofNat
  if cs.map Char.toNat = bs then some (String.mk cs) else none

/-- Embedding of VaultStorage (src/app/src/storage/mod.rs:49-53). -/
structure VaultStorage where
  db : Store
  master_key : Option MasterKey
  current_tenant : Option String
deriving DecidableEq, Repr

/-- Embedding of VaultStorage::log_audit_event
(src/app/src/storage/mod.rs:487-507): composes an audit entry (Uuid and
clock reading are the explicit inputs auditId and nanos) and writes it
with a plain insert at audit:<tenant>:<nanos>. -/
def log_audit_event (db : Store) (tenant_id event_type description : String)
    (auditId nanos : Nat) : Store :=
  dbInsert db (auditKey tenant_id nanos)
    (StoreVal.auditRec
      { id := auditId, tenant_id := tenant_id, event_type := event_type,
        description := description, timestamp := nanos,
        user_id := "system", ip_address := none, user_agent := none,
        resource_type := none, resource_id := none, metadata := none })

/-- Embedding of VaultStorage::init_tenant_with_password
(src/app/src/storage/mod.rs:166-197): generates a salt (explicit input
saltDraw), derives the master key with the AES-256-GCM suite, stores a
tenant record whose password hash is the derived key bytes, flushes, and
logs a tenant_created audit event. The source Result can only fail on
I/O, serialization or crate-internal KDF errors, which are not
modelled. -/
def init_tenant_with_password (st : VaultStorage) (tenant_id admin password : String)
    (saltDraw now auditId auditNanos : Nat) : VaultStorage :=
  let salt := saltDraw
  let master_key := MasterKey.derive_from_passphrase password salt
    EncryptionAlgorithm.Aes256Gcm
  let password_hash := master_key.key
  let tenant := Tenant.new_with_password tenant_id tenant_id admin salt
    password_hash now
  let db1 := dbInsert st.db (tenantKey tenant_id) (StoreVal.tenantRec tenant)
  let db2 := log_audit_event db1 tenant_id "tenant_created"
    ("Tenant " ++ tenant_id ++ " created by " ++ admin) auditId auditNanos
  { st with db := db2 }

/-- Embedding of VaultStorage::get_tenant (src/app/src/storage/mod.rs:477-485). -/
def get_tenant (st : VaultStorage) (tenant_id : String) :
    Except VaultError (Option Tenant) :=
  match dbGet st.db (tenantKey tenant_id) with
  | none => Except.ok none
  | some (StoreVal.tenantRec t) => Except.ok (some t)
  | some _ => Except.error VaultError.Serialization

/-- Embedding of VaultStorage::unlock (src/app/src/storage/mod.rs:199-225):
reads the tenant record, derives a candidate key with the stored salt and
the AES-256-GCM suite, compares the derived bytes with the stored
password hash using the derived (short-circuiting) array equality, and on
a match installs the master key, sets the current tenant and writes the
cached session key blob. -/
def unlock (st : VaultStorage) (tenant_id passphrase : String) :
    Except VaultError VaultStorage :=
  match get_tenant st tenant_id with
  | Except.error e => Except.error e
  | Except.ok none => Except.error (VaultError.TenantNotFound tenant_id)
  | Except.ok (some tenant) =>
    let master_key := MasterKey.derive_from_passphrase passphrase tenant.salt
      EncryptionAlgorithm.Aes256Gcm
    let derived_hash := master_key.key
    if bytesEq derived_hash tenant.password_hash then
      let db1 := dbInsert st.db (sessionKeyKey tenant_id)
        (StoreVal.sessionKeyRec master_key.key master_key.algorithm)
      Except.ok { db := db1, master_key := some master_key,
                  current_tenant := some tenant_id }
    else
      Except.error VaultError.InvalidPassphrase

/-- Embedding of VaultStorage::put_with_tags
(src/app/src/storage/mod.rs:253-289): requires the unlocked state,
encrypts the value, composes a fresh record (Uuid draw, clock reading and
the per-encryption salt and nonce draws are explicit inputs), writes it
under secret:<tenant>:<namespace>:<key>, flushes and logs a
secret_created audit event. -/
def put_with_tags (st : VaultStorage) (key value ns : String) (tags : List String)
    (uuidDraw now encSalt encNonce auditId auditNanos : Nat) :
    Except VaultError VaultStorage :=
  match st.master_key with
  | none => Except.error VaultError.VaultLocked
  | some master_key =>
    match st.current_tenant with
    | none => Except.error VaultError.VaultLocked
    | some tenant_id =>
      let encrypted_value := master_key.encrypt encSalt encNonce (strBytes value)
      let metadata : SecretMetadata :=
        { id := uuidDraw, tenant_id := tenant_id, ns := ns, key := key,
          version := 1, created_at := now, updated_at := now,
          created_by := "user", tags := tags }
      let secret : Secret := { metadata := metadata, encrypted_value := encrypted_value }
      let db1 := dbInsert st.db (secretKey tenant_id ns key) (StoreVal.secretRec secret)
      let db2 := log_audit_event db1 tenant_id "secret_created"
        ("Secret " ++ ns ++ "/" ++ key ++ " created") auditId auditNanos
      Except.ok { st with db := db2 }

/-- Embedding of VaultStorage::get_with_metadata
(src/app/src/storage/mod.rs:298-321): requires the unlocked state; a miss
returns none without error; a hit decrypts, decodes UTF-8, logs a
secret_accessed audit event (mutating the store, so the new state is
returned alongside the result) and yields the value with its metadata. -/
def get_with_metadata (st : VaultStorage) (key ns : String)
    (auditId auditNanos : Nat) :
    Except VaultError (VaultStorage × Option (String × SecretMetadata)) :=
  match st.master_key with
  | none => Except.error VaultError.VaultLocked
  | some master_key =>
    match st.current_tenant with
    | none => Except.error VaultError.VaultLocked
    | some tenant_id =>
      match dbGet st.db (secretKey tenant_id ns key) with
      | none => Except.ok (st, none)
      | some (StoreVal.secretRec secret) =>
        match master_key.decrypt secret.encrypted_value with
        | Except.error e => Except.error e
        | Except.ok decrypted =>
          match bytesStr decrypted with
          | none => Except.error (VaultError.Crypto ("invalid utf-8"))
          | some value =>
            let db1 := log_audit_event st.db tenant_id "secret_accessed"
              ("Secret " ++ ns ++ "/" ++ key ++ " accessed") auditId auditNanos
            Except.ok ({ st with db := db1 }, some (value, secret.metadata))
      | some _ => Except.error VaultError.Serialization

/-- Embedding of VaultStorage::get (src/app/src/storage/mod.rs:291-296). -/
def get (st : VaultStorage) (key ns : String) (auditId auditNanos : Nat) :
    Except VaultError (VaultStorage × Option String) :=
  match get_with_metadata st key ns auditId auditNanos with
  | Except.error e => Except.error e
  | Except.ok (st1, some (value, _)) => Except.ok (st1, some value)
  | Except.ok (st1, none) => Except.ok (st1, none)

/-- Embedding of VaultStorage::delete (src/app/src/storage/mod.rs:357-373):
requires a current tenant; removes the record if present, flushes and
logs a secret_deleted audit event; a missing record yields
SecretNotFound. -/
def delete (st : VaultStorage) (key ns : String) (auditId auditNanos : Nat) :
    Except VaultError VaultStorage :=
  match st.current_tenant with
  | none => Except.error VaultError.VaultLocked
  | some tenant_id =>
    match dbGet st.db (secretKey tenant_id ns key) with
    | some _ =>
      let db1 := dbRemoveKey st.db (secretKey tenant_id ns key)
      let db2 := log_audit_event db1 tenant_id "secret_deleted"
        ("Secret " ++ ns ++ "/" ++ key ++ " deleted") auditId auditNanos
      Except.ok { st with db := db2 }
    | none => Except.error (VaultError.SecretNotFound (ns ++ "/" ++ key))

/-- Initial-segment test on character lists, used to recognise the audit
keys of a tenant. -/
def listLeads : List Char → List Char → Bool
  | [], _ => true
  | _ :: _, [] => false
  | a :: l, b :: k => if a = b then listLeads l k else false

/-- A storage key is an audit key of the given tenant when it starts with
audit:<tenant>: . -/
def isAuditKeyFor (tenant_id : String) (k : String) : Bool :=
  listLeads (auditKeyStem tenant_id).data k.data

/-- Number of audit entries stored for a tenant. -/
def auditCount (db : Store) (tenant_id : String) : Nat :=
  (db.filter (fun p => isAuditKeyFor tenant_id p.1)).length

/-- Version field of the secret record stored under a given address, if
any. -/
def storedVersion (st : VaultStorage) (tenant_id ns key : String) : Option Nat :=
  match dbGet st.db (secretKey tenant_id ns key) with
  | some (StoreVal.secretRec s) => some s.metadata.version
  | _ => none

/-- Metadata of the secret record stored under a given address, if any. -/
def storedMeta (st : VaultStorage) (tenant_id ns key : String) : Option SecretMetadata :=
  match dbGet st.db (secretKey tenant_id ns key) with
  | some (StoreVal.secretRec s) => some s.metadata
  | _ => none

/-- Ok-or-default extraction from an Except value. -/
def exceptGetD {α : Type} (r : Except VaultError α) (d : α) : α :=
  match r with
  | Except.ok a => a
  | Except.error _ => d

/-- Success test of an Except value. -/
def exceptIsOk {α : Type} (r : Except VaultError α) : Bool :=
  match r with
  | Except.ok _ => true
  | Except.error _ => false

/-! Basic lemmas about the embedded store, the byte comparison and the
string keyspace. -/

theorem dbGet_dbRemoveKey_ne (db : Store) (k k2 : String) (h : k2 ≠ k) :
    dbGet (dbRemoveKey db k) k2 = dbGet db k2 := by
  induction db with
  | nil => rfl
  | cons p db ih =>
    by_cases hp : p.1 = k
    · rw [dbRemoveKey, if_pos hp, ih]
      have hne : p.1 ≠ k2 := fun e => h (by rw [← e, hp])
      rw [dbGet, if_neg hne]
    · rw [dbRemoveKey, if_neg hp]
      by_cases h2 : p.1 = k2
      · rw [dbGet, if_pos h2, dbGet, if_pos h2]
      · rw [dbGet, if_neg h2, dbGet, if_neg h2, ih]

theorem dbGet_dbRemoveKey_self (db : Store) (k : String) :
    dbGet (dbRemoveKey db k) k = none := by
  induction db with
  | nil => rfl
  | cons p db ih =>
    by_cases hp : p.1 = k
    · rw [dbRemoveKey, if_pos hp]; exact ih
    · rw [dbRemoveKey, if_neg hp, dbGet, if_neg hp]; exact ih

theorem dbGet_dbInsert_self (db : Store) (k : String) (v : StoreVal) :
    dbGet (dbInsert db k v) k = some v := by
  rw [dbInsert, dbGet, if_pos rfl]

theorem dbGet_dbInsert_ne (db : Store) (k k2 : String) (v : StoreVal) (h : k2 ≠ k) :
    dbGet (dbInsert db k v) k2 = dbGet db k2 := by
  rw [dbInsert, dbGet, if_neg (fun e => h e.symm)]
  exact dbGet_dbRemoveKey_ne db k k2 h

theorem dbRemoveKey_of_get_none (db : Store) (k : String) (h : dbGet db k = none) :
    dbRemoveKey db k = db := by
  induction db with
  | nil => rfl
  | cons p db ih =>
    rw [dbGet] at h
    by_cases hp : p.1 = k
    · rw [if_pos hp] at h; exact absurd h (by simp)
    · rw [if_neg hp] at h
      rw [dbRemoveKey, if_neg hp, ih h]

theorem bytesEq_iff (a : Bytes) : ∀ b : Bytes, bytesEq a b = true ↔ a = b := by
  induction a with
  | nil => intro b; cases b <;> simp [bytesEq]
  | cons x l ih =>
    intro b
    cases b with
    | nil => simp [bytesEq]
    | cons y k =>
      by_cases hxy : x = y
      · simp [bytesEq, hxy, ih k]
      · simp [bytesEq, hxy]

theorem bytesEqSteps_first_diff (x y : Nat) (s1 s2 : Bytes) (h : x ≠ y) :
    ∀ pre : Bytes,
      bytesEqSteps (pre ++ x :: s1) (pre ++ y :: s2) = pre.length + 1 := by
  intro pre
  induction pre with
  | nil => simp [bytesEqSteps, h]
  | cons a pre ih => simp [bytesEqSteps, ih]; omega

theorem charToNat_inj (c d : Char) (h : c.toNat = d.toNat) : c = d := by
  apply Char.eq_of_val_eq
  apply UInt32.toNat.inj
  exact h

theorem strBytes_inj (s p : String) (h : strBytes s = strBytes p) : s = p := by
  have hdata : s.data = p.data := by
    have : ∀ l k : List Char, l.map Char.toNat = k.map Char.toNat → l = k := by
      intro l
      induction l with
      | nil => intro k hk; cases k with
        | nil => rfl
        | cons c k => simp at hk
      | cons c l ih =>
        intro k hk
        cases k with
        | nil => simp at hk
        | cons d k =>
          simp only [List.map_cons, List.cons.injEq] at hk
          exact congrArg₂ List.cons (charToNat_inj c d hk.1) (ih k hk.2)
    exact this s.data p.data h
  cases s; cases p; exact congrArg String.mk hdata

theorem derive_key_argon2id_inj (p q : String) (salt : Nat)
    (h : derive_key_argon2id p salt = derive_key_argon2id q salt) : p = q := by
  rw [derive_key_argon2id, derive_key_argon2id] at h
  exact strBytes_inj p q (List.cons.injEq .. ▸ h).2

/-- First character of a string, used to separate the record-type
partitions of the flat keyspace. -/
def headChar (s : String) : Option Char :=
  s.data.head?

theorem ne_of_headChar (a b : String) (h : headChar a ≠ headChar b) : a ≠ b :=
  fun e => h (by rw [e])

theorem headChar_tenantKey (t : String) : headChar (tenantKey t) = some 't' := by
  have hd : ("tenant:" ++ t).data = 't' :: ('e' :: 'n' :: 'a' :: 'n' :: 't' :: ':' :: t.data) := by
    rw [String.data_append]; rfl
  rw [tenantKey, headChar, hd]; rfl

theorem headChar_secretKey (t ns k : String) :
    headChar (secretKey t ns k) = some 's' := by
  have hd : ("secret:" ++ (t ++ (":" ++ (ns ++ (":" ++ k))))).data =
      's' :: ("ecret:".data ++ (t ++ (":" ++ (ns ++ (":" ++ k)))).data) := by
    rw [String.data_append]; rfl
  rw [secretKey, headChar]
  rw [show "secret:" ++ t ++ ":" ++ ns ++ ":" ++ k =
      "secret:" ++ (t ++ (":" ++ (ns ++ (":" ++ k)))) from by
    rw [String.append_assoc, String.append_assoc, String.append_assoc,
      String.append_assoc]]
  rw [hd]; rfl

theorem headChar_auditKey (t : String) (n : Nat) :
    headChar (auditKey t n) = some 'a' := by
  have hd : (("audit:" ++ (t ++ ":")) ++ toString n).data =
      'a' :: ("udit:".data ++ ((t ++ ":").data ++ (toString n).data)) := by
    rw [String.data_append, String.data_append]; rfl
  rw [auditKey, auditKeyStem, headChar]
  rw [show "audit:" ++ t ++ ":" = "audit:" ++ (t ++ ":") from by
    rw [String.append_assoc]]
  rw [hd]; rfl

theorem tenantKey_ne_auditKey (t u : String) (n : Nat) :
    tenantKey t ≠ auditKey u n := by
  apply ne_of_headChar
  rw [headChar_tenantKey, headChar_auditKey]
  simp

theorem secretKey_ne_auditKey (t ns k u : String) (n : Nat) :
    secretKey t ns k ≠ auditKey u n := by
  apply ne_of_headChar
  rw [headChar_secretKey, headChar_auditKey]
  simp

theorem listLeads_append_self : ∀ l r : List Char, listLeads l (l ++ r) = true := by
  intro l r
  induction l with
  | nil => rfl
  | cons a l ih => simp [listLeads, ih]

theorem listLeads_head_ne (a : Char) (l k : List Char) (h : k.head? ≠ some a) :
    listLeads (a :: l) k = false := by
  cases k with
  | nil => rfl
  | cons b k =>
    have hab : a ≠ b := fun e => h (by rw [List.head?, e])
    simp [listLeads, hab]

theorem data_auditKeyStem (t : String) :
    (auditKeyStem t).data = 'a' :: (("udit:".data ++ t.data) ++ [':']) := by
  rw [auditKeyStem, String.data_append, String.data_append]
  rfl

theorem isAuditKeyFor_auditKey (t : String) (n : Nat) :
    isAuditKeyFor t (auditKey t n) = true := by
  rw [isAuditKeyFor, auditKey, String.data_append]
  exact listLeads_append_self _ _

theorem isAuditKeyFor_tenantKey (t u : String) :
    isAuditKeyFor t (tenantKey u) = false := by
  rw [isAuditKeyFor, data_auditKeyStem]
  apply listLeads_head_ne
  have hu := headChar_tenantKey u
  rw [headChar] at hu
  rw [hu]
  simp

theorem isAuditKeyFor_secretKey (t u ns k : String) :
    isAuditKeyFor t (secretKey u ns k) = false := by
  rw [isAuditKeyFor, data_auditKeyStem]
  apply listLeads_head_ne
  have hu := headChar_secretKey u ns k
  rw [headChar] at hu
  rw [hu]
  simp

theorem auditCount_cons (p : String × StoreVal) (db : Store) (t : String) :
    auditCount (p :: db) t =
      (if isAuditKeyFor t p.1 = true then 1 else 0) + auditCount db t := by
  by_cases h : isAuditKeyFor t p.1 = true
  · simp [auditCount, List.filter_cons, h, Nat.add_comm]
  · simp [auditCount, List.filter_cons, h]

theorem auditCount_dbRemoveKey_nonaudit (db : Store) (t k : String)
    (hk : isAuditKeyFor t k = false) :
    auditCount (dbRemoveKey db k) t = auditCount db t := by
  induction db with
  | nil => rfl
  | cons p db ih =>
    by_cases hp : p.1 = k
    · rw [dbRemoveKey, if_pos hp, ih, auditCount_cons, hp, hk]
      simp
    · rw [dbRemoveKey, if_neg hp, auditCount_cons, auditCount_cons, ih]

theorem auditCount_dbInsert_nonaudit (db : Store) (t k : String) (v : StoreVal)
    (hk : isAuditKeyFor t k = false) :
    auditCount (dbInsert db k v) t = auditCount db t := by
  rw [dbInsert, auditCount_cons]
  simp only [hk]
  simp [auditCount_dbRemoveKey_nonaudit db t k hk]

theorem auditCount_dbInsert_fresh (db : Store) (t k : String) (v : StoreVal)
    (hk : isAuditKeyFor t k = true) (hfresh : dbGet db k = none) :
    auditCount (dbInsert db k v) t = auditCount db t + 1 := by
  rw [dbInsert, dbRemoveKey_of_get_none db k hfresh, auditCount_cons]
  simp [hk, Nat.add_comm]

/-- Normal form of a successful put_with_tags call: on an unlocked engine
it writes the freshly composed secret record under the flat storage key
and then logs a secret_created audit event. -/
theorem put_with_tags_ok (st : VaultStorage) (mk : MasterKey)
    (t key value ns : String) (tags : List String)
    (uuid now es en aid anano : Nat)
    (hmk : st.master_key = some mk) (hct : st.current_tenant = some t) :
    put_with_tags st key value ns tags uuid now es en aid anano =
      Except.ok { st with db :=
        (log_audit_event
          (dbInsert st.db (secretKey t ns key)
            (StoreVal.secretRec
              { metadata :=
                  { id := uuid, tenant_id := t, ns := ns, key := key,
                    version := 1, created_at := now, updated_at := now,
                    created_by := "user", tags := tags },
                encrypted_value := mk.encrypt es en (strBytes value) }))
          t "secret_created" ("Secret " ++ ns ++ "/" ++ key ++ " created")
          aid anano) } := by
  simp only [put_with_tags, hmk, hct]

/-- Normal form of a successful delete call: it removes the record and
then logs a secret_deleted audit event. -/
theorem delete_ok (st : VaultStorage) (t key ns : String) (aid anano : Nat)
    (hct : st.current_tenant = some t)
    (hhit : dbGet st.db (secretKey t ns key) ≠ none) :
    delete st key ns aid anano =
      Except.ok { st with db :=
        (log_audit_event (dbRemoveKey st.db (secretKey t ns key))
          t "secret_deleted" ("Secret " ++ ns ++ "/" ++ key ++ " deleted")
          aid anano) } := by
  simp only [delete, hct]
  match hdb : dbGet st.db (secretKey t ns key) with
  | some v => rfl
  | none => exact absurd hdb hhit

/-- After init_tenant_with_password, the tenant record is readable and
carries the generated salt and the derived password hash. -/
theorem get_tenant_after_init (st : VaultStorage) (t admin P : String)
    (saltDraw now aid anano : Nat) :
    get_tenant (init_tenant_with_password st t admin P saltDraw now aid anano) t =
      Except.ok (some (Tenant.new_with_password t t admin saltDraw
        (derive_key_argon2id P saltDraw) now)) := by
  have hdb : dbGet (init_tenant_with_password st t admin P saltDraw now aid anano).db
      (tenantKey t) =
      some (StoreVal.tenantRec (Tenant.new_with_password t t admin saltDraw
        (derive_key_argon2id P saltDraw) now)) := by
    simp only [init_tenant_with_password, log_audit_event,
      MasterKey.derive_from_passphrase]
    rw [dbGet_dbInsert_ne _ _ _ _ (tenantKey_ne_auditKey t t anano),
      dbGet_dbInsert_self]
  rw [get_tenant, hdb]

/-! Claim theorems. -/

/-- C7: for every plaintext and for each suite in AES-256-GCM and
ChaCha20-Poly1305, decrypting with a master key the blob produced by
encrypting that plaintext with the same master key returns exactly the
plaintext. -/
theorem c7_encrypt_decrypt_roundtrip (mk : MasterKey) (saltDraw nonceDraw : Nat)
    (p : Bytes) :
    MasterKey.decrypt mk (MasterKey.encrypt mk saltDraw nonceDraw p) =
      Except.ok p := by
  obtain ⟨key, alg⟩ := mk
  cases alg <;>
    simp [MasterKey.encrypt, MasterKey.decrypt, encrypt_aes256gcm,
      decrypt_aes256gcm, encrypt_chacha20poly1305, decrypt_chacha20poly1305]

/-- C3, counterexample: a master key bound to the AES-256-GCM suite
decrypts a blob whose algorithm tag is ChaCha20-Poly1305 and returns its
plaintext, provided the blob was encrypted under the same raw key bytes;
MasterKey::decrypt does not reject the suite mismatch. -/
theorem c3_counterexample :
    (MasterKey.encrypt
        { key := [1, 2], algorithm := EncryptionAlgorithm.ChaCha20Poly1305 }
        5 7 [9, 9]).algorithm = EncryptionAlgorithm.ChaCha20Poly1305 ∧
    ({ key := [1, 2], algorithm := EncryptionAlgorithm.Aes256Gcm } :
        MasterKey).algorithm = EncryptionAlgorithm.Aes256Gcm ∧
    MasterKey.decrypt { key := [1, 2], algorithm := EncryptionAlgorithm.Aes256Gcm }
      (MasterKey.encrypt
        { key := [1, 2], algorithm := EncryptionAlgorithm.ChaCha20Poly1305 }
        5 7 [9, 9]) = Except.ok [9, 9] :=
  ⟨rfl, rfl, rfl⟩

/-- C3, amended: MasterKey::decrypt dispatches on the algorithm tag
carried by the blob and ignores the suite recorded in the master key
itself; a blob decrypts to its plaintext whenever it authenticates under
the key's raw bytes with the blob's own algorithm, whatever suite the key
is bound to, and it is rejected when the raw key bytes differ. -/
theorem c3_decrypt_ignores_key_suite :
    (∀ (k : Bytes) (algA algB : EncryptionAlgorithm) (s n : Nat) (p : Bytes),
      MasterKey.decrypt { key := k, algorithm := algA }
        (MasterKey.encrypt { key := k, algorithm := algB } s n p) =
        Except.ok p) ∧
    (∀ (k k2 : Bytes) (algA algB : EncryptionAlgorithm) (s n : Nat) (p : Bytes),
      k2 ≠ k →
      exceptIsOk (MasterKey.decrypt { key := k2, algorithm := algA }
        (MasterKey.encrypt { key := k, algorithm := algB } s n p)) = false) := by
  constructor
  · intro k algA algB s n p
    cases algB <;>
      simp [MasterKey.encrypt, MasterKey.decrypt, encrypt_aes256gcm,
        decrypt_aes256gcm, encrypt_chacha20poly1305, decrypt_chacha20poly1305]
  · intro k k2 algA algB s n p hne
    cases algB <;>
      simp [MasterKey.encrypt, MasterKey.decrypt, encrypt_aes256gcm,
        decrypt_aes256gcm, encrypt_chacha20poly1305,
        decrypt_chacha20poly1305, exceptIsOk, Ne.symm hne]

/-- C3, witness for the amended theorem at concrete inputs. -/
theorem c3_decrypt_ignores_key_suite_witness :
    MasterKey.decrypt { key := [1], algorithm := EncryptionAlgorithm.Aes256Gcm }
      (MasterKey.encrypt { key := [1], algorithm := EncryptionAlgorithm.ChaCha20Poly1305 }
        1 2 [3]) = Except.ok [3] ∧
    exceptIsOk (MasterKey.decrypt
      { key := [0], algorithm := EncryptionAlgorithm.Aes256Gcm }
      (MasterKey.encrypt { key := [1], algorithm := EncryptionAlgorithm.ChaCha20Poly1305 }
        1 2 [3])) = false :=
  ⟨c3_decrypt_ignores_key_suite.1 [1] EncryptionAlgorithm.Aes256Gcm
      EncryptionAlgorithm.ChaCha20Poly1305 1 2 [3],
   c3_decrypt_ignores_key_suite.2 [1] [0] EncryptionAlgorithm.Aes256Gcm
      EncryptionAlgorithm.ChaCha20Poly1305 1 2 [3] (by decide)⟩

/-- C4, counterexample: the equality used by unlock to compare the
derived key bytes with the stored password hash is not constant-time; on
two pairs of 32-byte arrays that both differ, its observable effort is 1
when the first byte differs and 32 when only the last byte differs. -/
theorem c4_counterexample :
    bytesEq (List.replicate 32 0) (1 :: List.replicate 31 0) = false ∧
    bytesEq (List.replicate 32 0) (List.replicate 31 0 ++ [1]) = false ∧
    bytesEqSteps (List.replicate 32 0) (1 :: List.replicate 31 0) = 1 ∧
    bytesEqSteps (List.replicate 32 0) (List.replicate 31 0 ++ [1]) = 32 ∧
    bytesEqSteps (List.replicate 32 0) (1 :: List.replicate 31 0) ≠
      bytesEqSteps (List.replicate 32 0) (List.replicate 31 0 ++ [1]) := by
  decide

/-- C4, amended: the comparison unlock performs is an ordinary
short-circuiting byte-for-byte equality: it decides equality of the byte
strings, but its observable effort on inputs that first differ right
after a common head is the length of that head plus one, so the effort
depends on which byte first differs. -/
theorem c4_shortcircuit_equality :
    (∀ a b : Bytes, bytesEq a b = true ↔ a = b) ∧
    (∀ (pre : Bytes) (x y : Nat) (s1 s2 : Bytes), x ≠ y →
      bytesEqSteps (pre ++ x :: s1) (pre ++ y :: s2) = pre.length + 1) :=
  ⟨fun a => bytesEq_iff a,
   fun pre x y s1 s2 h => bytesEqSteps_first_diff x y s1 s2 h pre⟩

/-- C4, witness for the amended theorem at concrete inputs. -/
theorem c4_shortcircuit_equality_witness :
    (bytesEq [3, 4] [3, 4] = true ↔ [3, 4] = ([3, 4] : Bytes)) ∧
    bytesEqSteps ([0, 0] ++ 1 :: []) ([0, 0] ++ 2 :: []) = 3 :=
  ⟨c4_shortcircuit_equality.1 [3, 4] [3, 4],
   c4_shortcircuit_equality.2 [0, 0] 1 2 [] [] (by decide)⟩

/-- C1: after init_tenant_with_password with passphrase P, unlock on that
tenant succeeds exactly on the candidate passphrase P (and then installs
the derived master key and sets the current tenant), a mismatching
passphrase yields InvalidPassphrase, and a tenant id with no tenant
record yields TenantNotFound. -/
theorem c1_unlock_iff_passphrase :
    (∀ (st : VaultStorage) (t admin P : String) (saltDraw now aid anano : Nat)
        (P1 : String),
      ((∃ st2, unlock (init_tenant_with_password st t admin P saltDraw now aid anano)
          t P1 = Except.ok st2) ↔ P1 = P) ∧
      (P1 = P →
        unlock (init_tenant_with_password st t admin P saltDraw now aid anano) t P1 =
          Except.ok
            { db := dbInsert
                (init_tenant_with_password st t admin P saltDraw now aid anano).db
                (sessionKeyKey t)
                (StoreVal.sessionKeyRec (derive_key_argon2id P saltDraw)
                  EncryptionAlgorithm.Aes256Gcm),
              master_key := some (MasterKey.derive_from_passphrase P saltDraw
                EncryptionAlgorithm.Aes256Gcm),
              current_tenant := some t }) ∧
      (P1 ≠ P →
        unlock (init_tenant_with_password st t admin P saltDraw now aid anano) t P1 =
          Except.error VaultError.InvalidPassphrase)) ∧
    (∀ (st : VaultStorage) (t P1 : String),
      dbGet st.db (tenantKey t) = none →
      unlock st t P1 = Except.error (VaultError.TenantNotFound t)) := by
  constructor
  · intro st t admin P saltDraw now aid anano P1
    have hmatch : P1 = P →
        unlock (init_tenant_with_password st t admin P saltDraw now aid anano) t P1 =
          Except.ok
            { db := dbInsert
                (init_tenant_with_password st t admin P saltDraw now aid anano).db
                (sessionKeyKey t)
                (StoreVal.sessionKeyRec (derive_key_argon2id P saltDraw)
                  EncryptionAlgorithm.Aes256Gcm),
              master_key := some (MasterKey.derive_from_passphrase P saltDraw
                EncryptionAlgorithm.Aes256Gcm),
              current_tenant := some t } := by
      intro he
      subst he
      simp only [unlock, get_tenant_after_init, MasterKey.derive_from_passphrase,
        Tenant.new_with_password]
      rw [if_pos ((bytesEq_iff _ _).mpr rfl)]
    have hmismatch : P1 ≠ P →
        unlock (init_tenant_with_password st t admin P saltDraw now aid anano) t P1 =
          Except.error VaultError.InvalidPassphrase := by
      intro hne
      simp only [unlock, get_tenant_after_init, MasterKey.derive_from_passphrase,
        Tenant.new_with_password]
      rw [if_neg (fun h =>
        hne (derive_key_argon2id_inj P1 P saltDraw ((bytesEq_iff _ _).mp h)))]
    refine ⟨⟨fun hok => ?_, fun he => ⟨_, hmatch he⟩⟩, hmatch, hmismatch⟩
    by_contra hne
    obtain ⟨st2, h2⟩ := hok
    rw [hmismatch hne] at h2
    exact Except.noConfusion h2
  · intro st t P1 hnone
    simp only [unlock, get_tenant, hnone]

/-- C1, witness at concrete inputs: the correct passphrase unlocks, a
wrong one yields InvalidPassphrase, and an unknown tenant yields
TenantNotFound. -/
theorem c1_unlock_iff_passphrase_witness :
    exceptIsOk (unlock
      (init_tenant_with_password
        { db := [], master_key := none, current_tenant := none }
        "acme" "a" "pw" 1 2 3 4) "acme" "pw") = true ∧
    unlock
      (init_tenant_with_password
        { db := [], master_key := none, current_tenant := none }
        "acme" "a" "pw" 1 2 3 4) "acme" "wrong" =
      Except.error VaultError.InvalidPassphrase ∧
    unlock { db := [], master_key := none, current_tenant := none }
      "missing" "pw" = Except.error (VaultError.TenantNotFound "missing") := by
  refine ⟨?_, ?_, ?_⟩
  · obtain ⟨st2, h2⟩ := ((c1_unlock_iff_passphrase.1
      { db := [], master_key := none, current_tenant := none }
      "acme" "a" "pw" 1 2 3 4 "pw").1).mpr rfl
    rw [h2]
    rfl
  · exact (c1_unlock_iff_passphrase.1
      { db := [], master_key := none, current_tenant := none }
      "acme" "a" "pw" 1 2 3 4 "wrong").2.2 (by decide)
  · exact c1_unlock_iff_passphrase.2
      { db := [], master_key := none, current_tenant := none }
      "missing" "pw" rfl

/-- An unlocked engine over an empty store for tenant acme, used as a
concrete evaluation point. -/
def stBase : VaultStorage :=
  { db := [],
    master_key := some { key := [4, 2], algorithm := EncryptionAlgorithm.Aes256Gcm },
    current_tenant := some "acme" }

/-- A placeholder encrypted value for pre-existing records in concrete
evaluation states. -/
def encBlob0 : EncryptedData :=
  { algorithm := EncryptionAlgorithm.Aes256Gcm,
    ciphertext := { body := [1], tagKey := [0], tagNonce := 0,
                    tagAlg := EncryptionAlgorithm.Aes256Gcm },
    nonce := 0, salt := 0, version := 1 }

/-- A pre-existing secret record with version 5, id 7 and created_at 100,
used to exercise the overwrite path. -/
def existingSecret : Secret :=
  { metadata := { id := 7, tenant_id := "acme", ns := "default",
                  key := "api", version := 5, created_at := 100,
                  updated_at := 100, created_by := "user", tags := [] },
    encrypted_value := encBlob0 }

/-- An unlocked engine whose store already holds existingSecret at
(acme, default, api). -/
def stOverwrite : VaultStorage :=
  { db := [(secretKey "acme" "default" "api", StoreVal.secretRec existingSecret)],
    master_key := some { key := [4, 2], algorithm := EncryptionAlgorithm.Aes256Gcm },
    current_tenant := some "acme" }

/-- C2: evaluation at the failing input. A record exists at
(acme, default, api) with version 5; a successful overwriting put stores
version 1, not existing.version + 1 = 6, so the stored version decreases
from 5 to 1 (src/app/src/storage/mod.rs:268 always writes version 1). -/
theorem c2_version_reset :
    storedVersion stOverwrite "acme" "default" "api" = some 5 ∧
    exceptIsOk (put_with_tags stOverwrite "api" "v2" "default" [] 9 200 11 13 15 17) =
      true ∧
    storedVersion
      (exceptGetD (put_with_tags stOverwrite "api" "v2" "default" [] 9 200 11 13 15 17)
        stOverwrite) "acme" "default" "api" = some 1 := by
  refine ⟨by decide, by decide, by decide⟩

/-- C9, counterexample: overwriting put does not preserve the existing
record's id and created_at; the record at (acme, default, api) has id 7
and created_at 100, and after a successful put with uuid draw 9 at time
200 the stored record has id 9 and created_at 200. -/
theorem c9_counterexample :
    (storedMeta stOverwrite "acme" "default" "api").map
      (fun m => (m.id, m.created_at)) = some (7, 100) ∧
    exceptIsOk (put_with_tags stOverwrite "api" "v2" "default" [] 9 200 11 13 15 17) =
      true ∧
    (storedMeta
      (exceptGetD (put_with_tags stOverwrite "api" "v2" "default" [] 9 200 11 13 15 17)
        stOverwrite) "acme" "default" "api").map
      (fun m => (m.id, m.created_at)) = some (9, 200) := by
  refine ⟨by decide, by decide, by decide⟩

/-- C9, amended: a successful put composes a wholly fresh record, even
when it overwrites: the stored metadata carries the newly drawn uuid as
id, created_at = updated_at = the time of the call, version 1, and the
given tags; nothing of an existing record is preserved. -/
theorem c9_put_stores_fresh_record (st : VaultStorage) (mk : MasterKey)
    (t key value ns : String) (tags : List String)
    (uuid now es en aid anano : Nat)
    (hmk : st.master_key = some mk) (hct : st.current_tenant = some t) :
    ∃ st2, put_with_tags st key value ns tags uuid now es en aid anano =
        Except.ok st2 ∧
      storedMeta st2 t ns key = some
        { id := uuid, tenant_id := t, ns := ns, key := key, version := 1,
          created_at := now, updated_at := now, created_by := "user",
          tags := tags } := by
  refine ⟨_, put_with_tags_ok st mk t key value ns tags uuid now es en aid anano
    hmk hct, ?_⟩
  simp only [storedMeta, log_audit_event]
  rw [dbGet_dbInsert_ne _ _ _ _ (secretKey_ne_auditKey t ns key t anano),
    dbGet_dbInsert_self]

/-- C9, witness for the amended theorem at a concrete overwrite. -/
theorem c9_put_stores_fresh_record_witness :
    storedMeta
      (exceptGetD (put_with_tags stOverwrite "api" "v2" "default" [] 9 200 11 13 15 17)
        stOverwrite) "acme" "default" "api" = some
      { id := 9, tenant_id := "acme", ns := "default", key := "api", version := 1,
        created_at := 200, updated_at := 200, created_by := "user", tags := [] } := by
  obtain ⟨st2, hput, hmeta⟩ := c9_put_stores_fresh_record stOverwrite
    { key := [4, 2], algorithm := EncryptionAlgorithm.Aes256Gcm }
    "acme" "api" "v2" "default" [] 9 200 11 13 15 17 rfl rfl
  rw [hput]
  exact hmeta

/-- C6, counterexample: put on an unlocked engine accepts a key that
contains the reserved separator and writes the record; it does not fail. -/
theorem c6_counterexample :
    exceptIsOk (put_with_tags stBase "a:b" "v" "default" [] 1 2 3 4 5 6) = true ∧
    storedMeta (exceptGetD (put_with_tags stBase "a:b" "v" "default" [] 1 2 3 4 5 6)
      stBase) "acme" "default" "a:b" ≠ none := by
  refine ⟨rfl, ?_⟩
  intro h
  exact Option.noConfusion (h.symm.trans rfl)

/-- C6, amended: put_with_tags performs no separator validation at all:
on an unlocked engine it succeeds for every key and namespace, including
ones containing the reserved separator, and stores the record under the
flat concatenated storage key; consequently distinct (namespace, key)
pairs can alias the same storage key, so the keyspace is ambiguous. -/
theorem c6_no_separator_validation :
    (∀ (st : VaultStorage) (mk : MasterKey) (t key value ns : String)
        (tags : List String) (uuid now es en aid anano : Nat),
      st.master_key = some mk → st.current_tenant = some t →
      ∃ st2, put_with_tags st key value ns tags uuid now es en aid anano =
          Except.ok st2 ∧
        dbGet st2.db (secretKey t ns key) ≠ none) ∧
    (∀ t n a b : String,
      secretKey t n (a ++ ":" ++ b) = secretKey t (n ++ ":" ++ a) b) := by
  constructor
  · intro st mk t key value ns tags uuid now es en aid anano hmk hct
    refine ⟨_, put_with_tags_ok st mk t key value ns tags uuid now es en aid anano
      hmk hct, ?_⟩
    simp only [log_audit_event]
    rw [dbGet_dbInsert_ne _ _ _ _ (secretKey_ne_auditKey t ns key t anano),
      dbGet_dbInsert_self]
    simp
  · intro t n a b
    simp [secretKey, String.append_assoc]

/-- C6, witness for the amended theorem at concrete inputs with a colon
inside the key. -/
theorem c6_no_separator_validation_witness :
    dbGet (exceptGetD (put_with_tags stBase "a:b" "v" "default" [] 1 2 3 4 5 6)
      stBase).db (secretKey "acme" "default" "a:b") ≠ none ∧
    secretKey "t" "n" ("a" ++ ":" ++ "b") = secretKey "t" ("n" ++ ":" ++ "a") "b" := by
  constructor
  · obtain ⟨st2, hput, hne⟩ := c6_no_separator_validation.1 stBase
      { key := [4, 2], algorithm := EncryptionAlgorithm.Aes256Gcm }
      "acme" "a:b" "v" "default" [] 1 2 3 4 5 6 rfl rfl
    rw [hput]
    exact hne
  · exact c6_no_separator_validation.2 "t" "n" "a" "b"

/-- C8: on an unlocked engine, get of an absent record returns None
without an error, while delete of an absent record returns a
SecretNotFound error. -/
theorem c8_get_miss_delete_miss (st : VaultStorage) (mk : MasterKey)
    (t key ns : String) (aid anano : Nat)
    (hmk : st.master_key = some mk) (hct : st.current_tenant = some t)
    (hmiss : dbGet st.db (secretKey t ns key) = none) :
    get st key ns aid anano = Except.ok (st, none) ∧
    delete st key ns aid anano =
      Except.error (VaultError.SecretNotFound (ns ++ "/" ++ key)) := by
  constructor
  · simp only [get, get_with_metadata, hmk, hct, hmiss]
  · simp only [delete, hct, hmiss]

/-- C8, witness at a concrete empty store. -/
theorem c8_get_miss_delete_miss_witness :
    get stBase "nope" "default" 1 2 = Except.ok (stBase, none) ∧
    delete stBase "nope" "default" 1 2 =
      Except.error (VaultError.SecretNotFound ("default" ++ "/" ++ "nope")) :=
  c8_get_miss_delete_miss stBase
    { key := [4, 2], algorithm := EncryptionAlgorithm.Aes256Gcm }
    "acme" "nope" "default" 1 2 rfl rfl rfl

/-- C10: a successful put or delete on an unlocked tenant leaves every
stored record unchanged except the one at the written (or removed)
secret storage key and the appended audit key; in particular every other
key of the flat store, hence every record of another tenant or
namespace stored under its own key, is untouched. -/
theorem c10_frame :
    (∀ (st : VaultStorage) (mk : MasterKey) (t key value ns : String)
        (tags : List String) (uuid now es en aid anano : Nat)
        (st2 : VaultStorage) (k2 : String),
      st.master_key = some mk → st.current_tenant = some t →
      put_with_tags st key value ns tags uuid now es en aid anano = Except.ok st2 →
      k2 ≠ secretKey t ns key → k2 ≠ auditKey t anano →
      dbGet st2.db k2 = dbGet st.db k2) ∧
    (∀ (st : VaultStorage) (t key ns : String) (aid anano : Nat)
        (st2 : VaultStorage) (k2 : String),
      st.current_tenant = some t →
      delete st key ns aid anano = Except.ok st2 →
      k2 ≠ secretKey t ns key → k2 ≠ auditKey t anano →
      dbGet st2.db k2 = dbGet st.db k2) := by
  constructor
  · intro st mk t key value ns tags uuid now es en aid anano st2 k2
      hmk hct hput hks hka
    rw [put_with_tags_ok st mk t key value ns tags uuid now es en aid anano
      hmk hct] at hput
    injection hput with h
    subst h
    simp only [log_audit_event]
    rw [dbGet_dbInsert_ne _ _ _ _ hka, dbGet_dbInsert_ne _ _ _ _ hks]
  · intro st t key ns aid anano st2 k2 hct hdel hks hka
    simp only [delete, hct] at hdel
    rcases hdb : dbGet st.db (secretKey t ns key) with _ | v
    · rw [hdb] at hdel
      exact Except.noConfusion hdel
    · rw [hdb] at hdel
      injection hdel with h
      subst h
      simp only [log_audit_event]
      rw [dbGet_dbInsert_ne _ _ _ _ hka, dbGet_dbRemoveKey_ne _ _ _ hks]

/-- C5, counterexample: two successful puts for the same tenant whose
audit entries carry the same nanosecond timestamp leave the audit entry
count at 1; the second insert overwrites the first audit key, because
log_audit_event writes audit:<tenant>:<nanos> with a plain insert and no
disambiguator. -/
theorem c5_counterexample :
    exceptIsOk (put_with_tags stBase "k1" "v" "default" [] 1 2 3 4 5 6) = true ∧
    auditCount (exceptGetD (put_with_tags stBase "k1" "v" "default" [] 1 2 3 4 5 6)
      stBase).db "acme" = 1 ∧
    exceptIsOk (put_with_tags
      (exceptGetD (put_with_tags stBase "k1" "v" "default" [] 1 2 3 4 5 6) stBase)
      "k2" "v" "default" [] 7 8 9 10 11 6) = true ∧
    auditCount (exceptGetD (put_with_tags
      (exceptGetD (put_with_tags stBase "k1" "v" "default" [] 1 2 3 4 5 6) stBase)
      "k2" "v" "default" [] 7 8 9 10 11 6)
      (exceptGetD (put_with_tags stBase "k1" "v" "default" [] 1 2 3 4 5 6) stBase)).db
      "acme" = 1 := by
  refine ⟨by decide, by decide, by decide, by decide⟩

/-- C5, amended: the audit entry count of a tenant grows by exactly one
on a successful init_tenant_with_password, put_with_tags or delete,
provided the nanosecond audit key of the call is not already present in
the store; when it is already present (two entries for the same tenant
in the same nanosecond) the new entry overwrites the old one. -/
theorem c5_audit_grows_when_key_fresh :
    (∀ (st : VaultStorage) (t admin pw : String) (saltDraw now aid anano : Nat),
      dbGet st.db (auditKey t anano) = none →
      auditCount (init_tenant_with_password st t admin pw saltDraw now aid anano).db t =
        auditCount st.db t + 1) ∧
    (∀ (st : VaultStorage) (mk : MasterKey) (t key value ns : String)
        (tags : List String) (uuid now es en aid anano : Nat) (st2 : VaultStorage),
      st.master_key = some mk → st.current_tenant = some t →
      dbGet st.db (auditKey t anano) = none →
      put_with_tags st key value ns tags uuid now es en aid anano = Except.ok st2 →
      auditCount st2.db t = auditCount st.db t + 1) ∧
    (∀ (st : VaultStorage) (t key ns : String) (aid anano : Nat) (st2 : VaultStorage),
      st.current_tenant = some t →
      dbGet st.db (auditKey t anano) = none →
      delete st key ns aid anano = Except.ok st2 →
      auditCount st2.db t = auditCount st.db t + 1) := by
  refine ⟨?_, ?_, ?_⟩
  · intro st t admin pw saltDraw now aid anano hfresh
    simp only [init_tenant_with_password, log_audit_event]
    have hfresh1 : dbGet (dbInsert st.db (tenantKey t)
        (StoreVal.tenantRec (Tenant.new_with_password t t admin saltDraw
          (MasterKey.derive_from_passphrase pw saltDraw
            EncryptionAlgorithm.Aes256Gcm).key now))) (auditKey t anano) = none := by
      rw [dbGet_dbInsert_ne _ _ _ _ (Ne.symm (tenantKey_ne_auditKey t t anano))]
      exact hfresh
    rw [auditCount_dbInsert_fresh _ t _ _ (isAuditKeyFor_auditKey t anano) hfresh1,
      auditCount_dbInsert_nonaudit _ t _ _ (isAuditKeyFor_tenantKey t t)]
  · intro st mk t key value ns tags uuid now es en aid anano st2 hmk hct hfresh hput
    rw [put_with_tags_ok st mk t key value ns tags uuid now es en aid anano
      hmk hct] at hput
    injection hput with h
    subst h
    simp only [log_audit_event]
    have hfresh1 : ∀ v : StoreVal, dbGet (dbInsert st.db (secretKey t ns key) v)
        (auditKey t anano) = none := by
      intro v
      rw [dbGet_dbInsert_ne _ _ _ _ (Ne.symm (secretKey_ne_auditKey t ns key t anano))]
      exact hfresh
    rw [auditCount_dbInsert_fresh _ t _ _ (isAuditKeyFor_auditKey t anano) (hfresh1 _),
      auditCount_dbInsert_nonaudit _ t _ _ (isAuditKeyFor_secretKey t t ns key)]
  · intro st t key ns aid anano st2 hct hfresh hdel
    simp only [delete, hct] at hdel
    rcases hdb : dbGet st.db (secretKey t ns key) with _ | v
    · rw [hdb] at hdel
      exact Except.noConfusion hdel
    · rw [hdb] at hdel
      injection hdel with h
      subst h
      simp only [log_audit_event]
      have hfresh1 : dbGet (dbRemoveKey st.db (secretKey t ns key))
          (auditKey t anano) = none := by
        rw [dbGet_dbRemoveKey_ne _ _ _ (Ne.symm (secretKey_ne_auditKey t ns key t anano))]
        exact hfresh
      rw [auditCount_dbInsert_fresh _ t _ _ (isAuditKeyFor_auditKey t anano) hfresh1,
        auditCount_dbRemoveKey_nonaudit _ t _ (isAuditKeyFor_secretKey t t ns key)]

/-- C5, witness for the amended theorem: concrete init, put and delete
calls with fresh audit keys each grow the audit count by one. -/
theorem c5_audit_grows_when_key_fresh_witness :
    auditCount (init_tenant_with_password
      { db := [], master_key := none, current_tenant := none }
      "acme" "a" "pw" 1 2 3 4).db "acme" =
      auditCount ([] : Store) "acme" + 1 ∧
    auditCount (exceptGetD (put_with_tags stBase "k1" "v" "default" [] 1 2 3 4 5 6)
      stBase).db "acme" = auditCount stBase.db "acme" + 1 ∧
    auditCount (exceptGetD (delete stOverwrite "api" "default" 1 2) stOverwrite).db
      "acme" = auditCount stOverwrite.db "acme" + 1 :=
  ⟨c5_audit_grows_when_key_fresh.1
      { db := [], master_key := none, current_tenant := none }
      "acme" "a" "pw" 1 2 3 4 (by decide),
   c5_audit_grows_when_key_fresh.2.1 stBase
      { key := [4, 2], algorithm := EncryptionAlgorithm.Aes256Gcm }
      "acme" "k1" "v" "default" [] 1 2 3 4 5 6
      (exceptGetD (put_with_tags stBase "k1" "v" "default" [] 1 2 3 4 5 6) stBase)
      (by decide) (by decide) (by decide) rfl,
   c5_audit_grows_when_key_fresh.2.2 stOverwrite "acme" "api" "default" 1 2
      (exceptGetD (delete stOverwrite "api" "default" 1 2) stOverwrite)
      (by decide) (by decide) rfl⟩

/-- C10, witness: at a concrete store, put and delete leave the key
tenant:acme untouched. -/
theorem c10_frame_witness :
    dbGet (exceptGetD (put_with_tags stOverwrite "api" "v2" "default" [] 9 200 11 13 15 17)
      stOverwrite).db "tenant:acme" = dbGet stOverwrite.db "tenant:acme" ∧
    dbGet (exceptGetD (delete stOverwrite "api" "default" 1 2) stOverwrite).db
      "tenant:acme" = dbGet stOverwrite.db "tenant:acme" :=
  ⟨c10_frame.1 stOverwrite
      { key := [4, 2], algorithm := EncryptionAlgorithm.Aes256Gcm }
      "acme" "api" "v2" "default" [] 9 200 11 13 15 17
      (exceptGetD (put_with_tags stOverwrite "api" "v2" "default" [] 9 200 11 13 15 17)
        stOverwrite) "tenant:acme" rfl rfl rfl (by decide) (by decide),
   c10_frame.2 stOverwrite "acme" "api" "default" 1 2
      (exceptGetD (delete stOverwrite "api" "default" 1 2) stOverwrite)
      "tenant:acme" rfl rfl (by decide) (by decide)⟩

end VaultSpec
